import Mathlib

/-!
Shallow embedding of the wallet aggregation and valuation core of the
binance-PnL repository: the account readers and valuator of
src/services/binance_service.py, the profit-rate helper of
src/utils/calculations.py, and the portfolio aggregation loop of
src/main.py.

Monetary amounts and prices are exact rationals (`Rat`).  An exchange
endpoint call that can raise an exception in Python is Option-valued
here: `none` models the call raising.  A Python function that catches
all exceptions and returns an empty frame (the cross-margin and
isolated-margin readers) is total here, taking the possibly-failing
fetch as an `Option` argument.  `get_all_wallet_values` catches every
exception and returns the empty dict `{}` in Python; its embedding
returns the wallet-value dict as an association list, with `[]`
modelling the empty dict produced on failure.
-/

namespace BinancePnL

/-- One row of the spot account response: `free` and `locked` amounts per
asset, as parsed by `get_spot_balance`. -/
structure SpotRow where
  asset : String
  free : Rat
  locked : Rat
deriving DecidableEq, Repr

/-- A spot balance row after `get_spot_balance` adds the `total` column
(`total = free + locked`). -/
structure SpotBal where
  asset : String
  free : Rat
  locked : Rat
  total : Rat
deriving DecidableEq, Repr

/-- One row of a futures balance response (USDT-margined or coin-margined):
the `asset` and `balance` columns used by the code, plus `others`, the
remaining columns of the row, which the code never touches. -/
structure FutRow where
  asset : String
  balance : Rat
  others : List (String × String)
deriving DecidableEq, Repr

/-- One row of the cross-margin `userAssets` response after numeric
conversion in `get_cross_margin_balance`. -/
structure MarginRow where
  asset : String
  free : Rat
  locked : Rat
  borrowed : Rat
  interest : Rat
  netAsset : Rat
deriving DecidableEq, Repr

/-- One side (base or quote) of an isolated-margin pair record. -/
structure IsoSide where
  asset : String
  netAsset : Rat
deriving DecidableEq, Repr

/-- One isolated-margin pair record from the `assets` list of the
isolated-margin account response. -/
structure IsoPair where
  symbol : String
  enabled : Bool
  baseAsset : IsoSide
  quoteAsset : IsoSide
deriving DecidableEq, Repr

/-- One entry of the list built by `get_isolated_margin_balance`:
the pair symbol and its pre-converted USDT value (stored under the
`netAsset` key in the code). -/
structure IsoBalance where
  symbol : String
  netAsset : Rat
deriving DecidableEq, Repr

/-- The state of the exchange as observed through the client calls the
service makes.  A `none` fetch models the client call raising an
exception.  `futuresPositions` carries the `unrealizedProfit` of each
open position.  `symbolTicker` models `client.get_symbol_ticker(symbol=s)`
(`none` models that call raising).  `prices` models the full ticker list
behind `get_current_prices`. -/
structure Exchange where
  spotAccount : Option (List SpotRow)
  futuresBalance : Option (List FutRow)
  futuresPositions : Option (List Rat)
  coinFuturesBalance : Option (List FutRow)
  crossMarginAccount : Option (List MarginRow)
  isolatedMarginAccount : Option (List IsoPair)
  prices : Option (List (String × Rat))
  symbolTicker : String → Option Rat

/-- `get_spot_balance`: add `total = free + locked`, keep rows with
`total > 0`.  No try/except in the source: a fetch failure propagates. -/
def get_spot_balance (ex : Exchange) : Option (List SpotBal) :=
  ex.spotAccount.map fun rows =>
    (rows.map fun r => ⟨r.asset, r.free, r.locked, r.free + r.locked⟩).filter
      fun b => 0 < b.total

/-- The body of `get_futures_balance` after both fetches succeed: compute
the total unrealized profit and write
`first-USDT-balance + total_unrealized_profit` into the `balance` cell of
every USDT row.  When the frame is non-empty with a `balance` column but
holds no USDT row, `.iloc[0]` on the empty selection raises IndexError:
modelled by `none`.  An empty frame is returned unchanged (the guard
`not balance_df.empty and balance in balance_df.columns` fails). -/
def add_unrealized_profit (rows : List FutRow) (positions : List Rat) :
    Option (List FutRow) :=
  let total_unrealized_profit := positions.sum
  if rows.isEmpty then some rows
  else
    match rows.find? (fun r => r.asset == "USDT") with
    | some u =>
        some (rows.map fun r =>
          if r.asset == "USDT" then
            { asset := r.asset
              balance := u.balance + total_unrealized_profit
              others := r.others }
          else r)
    | none => none

/-- `get_futures_balance`: fetch the futures balance frame and the open
positions, then fold the unrealized profit into the USDT row.  No
try/except in the source: any failure propagates. -/
def get_futures_balance (ex : Exchange) : Option (List FutRow) :=
  match ex.futuresBalance, ex.futuresPositions with
  | some rows, some positions => add_unrealized_profit rows positions
  | _, _ => none

/-- `get_coin_futures_balance`: returns the fetched frame as is.  No
try/except in the source: a fetch failure propagates. -/
def get_coin_futures_balance (ex : Exchange) : Option (List FutRow) :=
  ex.coinFuturesBalance

/-- `get_cross_margin_balance`: keep rows with `netAsset > 0`; the
surrounding try/except turns any failure into an empty frame. -/
def get_cross_margin_balance (ex : Exchange) : List MarginRow :=
  match ex.crossMarginAccount with
  | some rows => rows.filter fun b => 0 < b.netAsset
  | none => []

/-- The per-pair body of the loop in `get_isolated_margin_balance`: for an
enabled pair, the base side is converted at the `<base>USDT` ticker price
(a ticker failure yields 0 for the base side), the quote side counts only
when the quote asset is USDT, and an entry is appended only when the
combined value is positive. -/
def isoEntry (ex : Exchange) (account : IsoPair) : List IsoBalance :=
  if account.enabled then
    let base_net_asset := account.baseAsset.netAsset
    let base_value :=
      if 0 < base_net_asset then
        match ex.symbolTicker (account.baseAsset.asset ++ "USDT") with
        | some price => base_net_asset * price
        | none => 0
      else 0
    let quote_net_asset := account.quoteAsset.netAsset
    let quote_value :=
      if account.quoteAsset.asset == "USDT" then quote_net_asset else 0
    let total_value := base_value + quote_value
    if 0 < total_value then [⟨account.symbol, total_value⟩] else []
  else []

/-- The loop of `get_isolated_margin_balance` over the `assets` list,
appending each pair's entries in order. -/
def isoProcess (ex : Exchange) : List IsoPair → List IsoBalance
  | [] => []
  | a :: rest => isoEntry ex a ++ isoProcess ex rest

/-- `get_isolated_margin_balance`: the surrounding try/except (and the
shape guard on the response) turns any fetch failure into an empty
frame. -/
def get_isolated_margin_balance (ex : Exchange) : List IsoBalance :=
  match ex.isolatedMarginAccount with
  | some accounts => isoProcess ex accounts
  | none => []

/-- The price dict built by `get_current_prices`: a Python dict
comprehension, so on duplicate symbols the last entry wins. -/
def dictOfList (l : List (String × Rat)) : String → Option Rat :=
  fun s => (l.reverse.find? fun kv => kv.1 == s).map fun kv => kv.2

/-- The `balances` argument of `calculate_total_value` together with its
`balance_type` tag: each account type carries its own row shape. -/
inductive Balances where
  | spot (rows : List SpotBal)
  | cross_margin (rows : List MarginRow)
  | isolated_margin (rows : List IsoBalance)
  | futures (rows : List FutRow)
  | coin_futures (rows : List FutRow)

/-- `calculate_total_value`: accumulate `total_usdt` over the rows.  USDT
rows count at face value; other assets are converted at the
`<asset>USDT` price when that pair is in the price dict and are skipped
otherwise; isolated-margin rows are already converted, so their
`netAsset` column is summed directly. -/
def calculate_total_value (balances : Balances) (prices : String → Option Rat) :
    Rat :=
  match balances with
  | .spot rows =>
      rows.foldl (fun total_usdt balance =>
        if balance.asset == "USDT" then total_usdt + balance.total
        else
          match prices (balance.asset ++ "USDT") with
          | some p => total_usdt + balance.total * p
          | none => total_usdt) 0
  | .cross_margin rows =>
      rows.foldl (fun total_usdt balance =>
        if balance.asset == "USDT" then total_usdt + balance.netAsset
        else
          match prices (balance.asset ++ "USDT") with
          | some p => total_usdt + balance.netAsset * p
          | none => total_usdt) 0
  | .isolated_margin rows =>
      rows.foldl (fun total_usdt balance => total_usdt + balance.netAsset) 0
  | .futures rows =>
      rows.foldl (fun total_usdt balance =>
        if balance.asset == "USDT" then total_usdt + balance.balance
        else
          match prices (balance.asset ++ "USDT") with
          | some p => total_usdt + balance.balance * p
          | none => total_usdt) 0
  | .coin_futures rows =>
      rows.foldl (fun total_usdt balance =>
        if balance.asset == "USDT" then total_usdt + balance.balance
        else
          match prices (balance.asset ++ "USDT") with
          | some p => total_usdt + balance.balance * p
          | none => total_usdt) 0

/-- `get_all_wallet_values`: fetch prices and the five account reads, then
value each account type.  The wallet-value dict is an association list in
insertion order.  The whole body is wrapped in try/except returning `{}`
in Python, so a failure of the prices, spot, futures, or coin-futures
fetch (the only fallible steps) yields the empty dict, modelled by `[]`. -/
def get_all_wallet_values (ex : Exchange) : List (String × Rat) :=
  match ex.prices, get_spot_balance ex, get_futures_balance ex,
      get_coin_futures_balance ex with
  | some priceList, some spot_balances, some futures_balances,
      some coin_futures_balances =>
      let prices := dictOfList priceList
      [("spot", calculate_total_value (.spot spot_balances) prices),
       ("futures", calculate_total_value (.futures futures_balances) prices),
       ("coin_futures",
        calculate_total_value (.coin_futures coin_futures_balances) prices),
       ("cross_margin",
        calculate_total_value (.cross_margin (get_cross_margin_balance ex)) prices),
       ("isolated_margin",
        calculate_total_value
          (.isolated_margin (get_isolated_margin_balance ex)) prices)]
  | _, _, _, _ => []

/-- `calculate_profit_rate` from src/utils/calculations.py. -/
def calculate_profit_rate (current_value initial_investment : Rat) : Rat :=
  if initial_investment = 0 then 0
  else ((current_value - initial_investment) / initial_investment) * 100

/-- One configured credential in main.py: its configured investment and
the exchange state its `BinanceService` observes. -/
structure ApiConfig where
  total_investment : Rat
  ex : Exchange

/-- `wallet_values.get(wallet_type, 0)` in main.py: dict lookup with
default 0. -/
def dictGet (l : List (String × Rat)) (k : String) : Rat :=
  match l.find? (fun kv => kv.1 == k) with
  | some kv => kv.2
  | none => 0

/-- The keys of main.py's `total_wallet_values` dict, in insertion
order. -/
def wallet_type_keys : List String :=
  ["spot", "futures", "coin_futures", "cross_margin", "isolated_margin"]

/-- main.py's aggregation loop for one wallet type: each configured
credential contributes `wallet_values.get(wallet_type, 0)` of its own
`get_all_wallet_values` result. -/
def total_wallet_values (configs : List ApiConfig) (t : String) : Rat :=
  (configs.map fun c => dictGet (get_all_wallet_values c.ex) t).sum

/-- main.py: `total_investment = sum(config[..] for config in configs)`,
over every configured credential. -/
def total_investment_of (configs : List ApiConfig) : Rat :=
  (configs.map fun c => c.total_investment).sum

/-- main.py: `total_value = sum(total_wallet_values.values())`. -/
def total_value_of (configs : List ApiConfig) : Rat :=
  (wallet_type_keys.map fun t => total_wallet_values configs t).sum

/-- main.py: `total_profit_amount = total_value - total_investment`. -/
def total_profit_amount_of (configs : List ApiConfig) : Rat :=
  total_value_of configs - total_investment_of configs

/-- main.py: `total_profit_rate = calculate_profit_rate(total_value,
total_investment)`. -/
def total_profit_rate_of (configs : List ApiConfig) : Rat :=
  calculate_profit_rate (total_value_of configs) (total_investment_of configs)

/-! Concrete exchange states used as inputs below. -/

/-- A healthy account with nothing in it: every fetch succeeds and is
empty, every per-symbol ticker call fails. -/
def exBase : Exchange :=
  { spotAccount := some []
    futuresBalance := some []
    futuresPositions := some []
    coinFuturesBalance := some []
    crossMarginAccount := some []
    isolatedMarginAccount := some []
    prices := some []
    symbolTicker := fun _ => none }

/-- Futures account holding only BNB (no USDT row) while one open position
carries unrealized profit 5. -/
def exC1 : Exchange :=
  { exBase with
    futuresBalance := some [⟨"BNB", 1, []⟩]
    futuresPositions := some [5] }

/-- Spot worth 100 USDT and futures worth 50 USDT, but the coin-futures
fetch fails. -/
def exC2fail : Exchange :=
  { exBase with
    spotAccount := some [⟨"USDT", 100, 0⟩]
    futuresBalance := some [⟨"USDT", 50, []⟩]
    coinFuturesBalance := none }

/-- Spot worth 100 USDT, futures worth 50 USDT, and only the cross-margin
fetch failing. -/
def exCrossFail : Exchange :=
  { exBase with
    spotAccount := some [⟨"USDT", 100, 0⟩]
    futuresBalance := some [⟨"USDT", 50, []⟩]
    crossMarginAccount := none }

/-- Spot worth 100 USDT, futures worth 50 USDT, and only the
isolated-margin fetch failing. -/
def exIsoFail : Exchange :=
  { exBase with
    spotAccount := some [⟨"USDT", 100, 0⟩]
    futuresBalance := some [⟨"USDT", 50, []⟩]
    isolatedMarginAccount := none }

/-- Credential A of the spec scenario: spot 100 USDT, futures wallet
50 USDT with no open positions, nothing anywhere else. -/
def exA : Exchange :=
  { exBase with
    spotAccount := some [⟨"USDT", 100, 0⟩]
    futuresBalance := some [⟨"USDT", 50, []⟩] }

/-- Credential A configured with investment 100. -/
def cfgA : ApiConfig := ⟨100, exA⟩

/-- An account whose spot fetch fails. -/
def exSpotFail : Exchange := { exBase with spotAccount := none }

/-- A fatally failing credential configured with investment 50. -/
def cfgFail : ApiConfig := ⟨50, exSpotFail⟩

/-- The isolated-margin pair of the spec scenario: enabled BTCUSDT pair,
base netAsset 0.001, quote netAsset 0. -/
def pairBTC : IsoPair := ⟨"BTCUSDT", true, ⟨"BTC", 1 / 1000⟩, ⟨"USDT", 0⟩⟩

/-- Isolated margin holding exactly the scenario pair, with every ticker
call failing. -/
def exIso7 : Exchange := { exBase with isolatedMarginAccount := some [pairBTC] }

/-- A small concrete price dict: only BTCUSDT is priced, at 2. -/
def priceW : String → Option Rat := dictOfList [("BTCUSDT", 2)]

/-! Theorems. -/

/-- C5: `calculate_profit_rate` returns 0 when `total_investment` is 0 and
`((current_value - total_investment) / total_investment) * 100` otherwise;
the guard means the division is only taken with a nonzero divisor. -/
theorem profit_rate_zero_guard (current_value initial_investment : Rat) :
    (initial_investment = 0 →
      calculate_profit_rate current_value initial_investment = 0) ∧
    (initial_investment ≠ 0 →
      calculate_profit_rate current_value initial_investment =
        ((current_value - initial_investment) / initial_investment) * 100) := by
  constructor <;> intro h <;> simp [calculate_profit_rate, h]

/-- Witness for C5: both branches of the guard at concrete inputs. -/
theorem profit_rate_zero_guard_witness :
    calculate_profit_rate 150 0 = 0 ∧ calculate_profit_rate 150 100 = 50 := by
  refine ⟨(profit_rate_zero_guard 150 0).1 rfl, ?_⟩
  rw [(profit_rate_zero_guard 150 100).2 (by norm_num)]
  norm_num

/-- C6: the spec scenario for a single credential: spot 100 USDT, futures
wallet 50 USDT with no positions, nothing in the other three accounts,
investment 100, gives the value map
{spot: 100, futures: 50, coin_futures: 0, cross_margin: 0,
isolated_margin: 0}, total value 150, profit amount 50, and profit rate
50 percent. -/
theorem scenario_single_credential :
    get_all_wallet_values exA =
      [("spot", 100), ("futures", 50), ("coin_futures", 0),
       ("cross_margin", 0), ("isolated_margin", 0)] ∧
    total_value_of [cfgA] = 150 ∧
    total_profit_amount_of [cfgA] = 50 ∧
    total_profit_rate_of [cfgA] = 50 := by
  have hx : get_all_wallet_values cfgA.ex =
      [("spot", 100), ("futures", 50), ("coin_futures", 0),
       ("cross_margin", 0), ("isolated_margin", 0)] := by
    norm_num [get_all_wallet_values, cfgA, exA, exBase, get_spot_balance,
      get_futures_balance, add_unrealized_profit, get_coin_futures_balance,
      get_cross_margin_balance, get_isolated_margin_balance, isoProcess,
      calculate_total_value, dictOfList, List.find?, List.filter, List.foldl]
  have h2 : ∀ t, total_wallet_values [cfgA] t =
      dictGet [("spot", 100), ("futures", 50), ("coin_futures", 0),
        ("cross_margin", 0), ("isolated_margin", 0)] t := by
    intro t
    simp [total_wallet_values, hx]
  have hv : total_value_of [cfgA] = 150 := by
    simp [total_value_of, wallet_type_keys, h2, dictGet, List.find?]
    norm_num
  have hi : total_investment_of [cfgA] = 100 := by
    simp [total_investment_of, cfgA]
  refine ⟨hx, hv, ?_, ?_⟩
  · rw [total_profit_amount_of, hv, hi]; norm_num
  · rw [total_profit_rate_of, hv, hi, calculate_profit_rate]; norm_num

/-- C1: when the futures balance frame is non-empty (with its `balance`
column) but holds no USDT row while positions carry nonzero unrealized
profit, the code does not create a USDT entry: `.iloc[0]` on the empty
USDT selection raises IndexError (modelled by `none`), and the catch-all
in `get_all_wallet_values` then returns the empty dict, dropping the whole
credential's values. -/
theorem futures_missing_usdt_row_fails :
    add_unrealized_profit [⟨"BNB", 1, []⟩] [5] = none ∧
    get_all_wallet_values exC1 = [] := by
  constructor
  · simp [add_unrealized_profit, List.find?]
  · simp [get_all_wallet_values, exC1, exBase, get_spot_balance,
      get_futures_balance, add_unrealized_profit, get_coin_futures_balance,
      List.find?]

/-- C2 counterexample: a coin-futures fetch failure is not tolerated
per-type.  With spot worth 100 USDT and futures worth 50 USDT but the
coin-futures fetch failing, `get_all_wallet_values` returns the empty
dict, not the claimed map with only coin_futures zeroed; the healthy
spot value is reported as 0 by the aggregation's lookup. -/
theorem coin_futures_failure_not_tolerated :
    get_all_wallet_values exC2fail = [] ∧
    get_all_wallet_values exC2fail ≠
      [("spot", 100), ("futures", 50), ("coin_futures", 0),
       ("cross_margin", 0), ("isolated_margin", 0)] ∧
    dictGet (get_all_wallet_values exC2fail) "spot" = 0 := by
  have h : get_all_wallet_values exC2fail = [] := by
    simp [get_all_wallet_values, exC2fail, exBase, get_coin_futures_balance]
  refine ⟨h, by rw [h]; simp, by rw [h]; simp [dictGet, List.find?]⟩

/-- C2 amended: a fetch failure of cross_margin alone, or of
isolated_margin alone, is tolerated: the failing type is valued 0, the
remaining four account types (the other margin type included) are
computed normally from their own fetches, and the credential still
yields a full wallet map (it is not reported as failed). -/
theorem margin_failures_tolerated (ex : Exchange)
    (priceList : List (String × Rat)) (sb : List SpotBal) (fb cb : List FutRow)
    (hp : ex.prices = some priceList) (hs : get_spot_balance ex = some sb)
    (hf : get_futures_balance ex = some fb)
    (hcb : get_coin_futures_balance ex = some cb) :
    (ex.crossMarginAccount = none →
      get_all_wallet_values ex =
        [("spot", calculate_total_value (.spot sb) (dictOfList priceList)),
         ("futures", calculate_total_value (.futures fb) (dictOfList priceList)),
         ("coin_futures",
          calculate_total_value (.coin_futures cb) (dictOfList priceList)),
         ("cross_margin", 0),
         ("isolated_margin",
          calculate_total_value
            (.isolated_margin (get_isolated_margin_balance ex))
            (dictOfList priceList))]) ∧
    (ex.isolatedMarginAccount = none →
      get_all_wallet_values ex =
        [("spot", calculate_total_value (.spot sb) (dictOfList priceList)),
         ("futures", calculate_total_value (.futures fb) (dictOfList priceList)),
         ("coin_futures",
          calculate_total_value (.coin_futures cb) (dictOfList priceList)),
         ("cross_margin",
          calculate_total_value
            (.cross_margin (get_cross_margin_balance ex))
            (dictOfList priceList)),
         ("isolated_margin", 0)]) := by
  constructor <;> intro h
  · have h1 : get_cross_margin_balance ex = [] := by
      simp [get_cross_margin_balance, h]
    unfold get_all_wallet_values
    rw [hp, hs, hf, hcb, h1]
    rfl
  · have h2 : get_isolated_margin_balance ex = [] := by
      simp [get_isolated_margin_balance, h]
    unfold get_all_wallet_values
    rw [hp, hs, hf, hcb, h2]
    rfl

/-- Witness for the amended C2: with spot 100 USDT and futures 50 USDT,
a failure of only the cross-margin fetch, and separately of only the
isolated-margin fetch, each still yields the full five-key map with just
the failing margin type at 0. -/
theorem margin_failures_tolerated_witness :
    get_all_wallet_values exCrossFail =
      [("spot", 100), ("futures", 50), ("coin_futures", 0),
       ("cross_margin", 0), ("isolated_margin", 0)] ∧
    get_all_wallet_values exIsoFail =
      [("spot", 100), ("futures", 50), ("coin_futures", 0),
       ("cross_margin", 0), ("isolated_margin", 0)] := by
  have h1 := (margin_failures_tolerated exCrossFail []
    [⟨"USDT", 100, 0, 100⟩] [⟨"USDT", 50, []⟩] []
    rfl
    (by simp [get_spot_balance, exCrossFail, exBase])
    (by simp [get_futures_balance, exCrossFail, exBase, add_unrealized_profit,
      List.find?])
    rfl).1 rfl
  have h2 := (margin_failures_tolerated exIsoFail []
    [⟨"USDT", 100, 0, 100⟩] [⟨"USDT", 50, []⟩] []
    rfl
    (by simp [get_spot_balance, exIsoFail, exBase])
    (by simp [get_futures_balance, exIsoFail, exBase, add_unrealized_profit,
      List.find?])
    rfl).2 rfl
  constructor
  · rw [h1]
    norm_num [calculate_total_value, dictOfList, get_isolated_margin_balance,
      exCrossFail, exBase, isoProcess]
  · rw [h2]
    norm_num [calculate_total_value, dictOfList, get_cross_margin_balance,
      exIsoFail, exBase]

/-- C3 amended: `get_all_wallet_values` either returns a map whose keys
are exactly the five account types (on success) or the empty dict with
no keys at all (when any fallible fetch fails); the all-keys-present
guarantee does not hold on failure. -/
theorem wallet_map_all_keys_or_empty (ex : Exchange) :
    (get_all_wallet_values ex).map Prod.fst = wallet_type_keys ∨
    get_all_wallet_values ex = [] := by
  unfold get_all_wallet_values
  split
  · left; rfl
  · right; rfl

/-- C3 counterexample: when the spot fetch fails, `get_all_wallet_values`
returns the empty dict, so no account-type key is present at all, against
the claim that all five keys are always present with failed reads mapped
to 0. -/
theorem wallet_map_empty_on_spot_failure :
    get_all_wallet_values exSpotFail = [] ∧
    ¬ (get_all_wallet_values exSpotFail).map Prod.fst = wallet_type_keys := by
  have h : get_all_wallet_values exSpotFail = [] := by
    simp [get_all_wallet_values, exSpotFail, exBase, get_spot_balance]
  refine ⟨h, by rw [h]; simp [wallet_type_keys]⟩


/-- C4: main.py sums `total_investment` over every configured credential,
while a credential whose wallet read fatally failed (empty wallet map)
contributes 0 to every per-type grand total and to the total value; the
aggregation is total, so the pass completes. -/
theorem failed_credential_investment_counted (configs : List ApiConfig)
    (c : ApiConfig) (hfail : get_all_wallet_values c.ex = []) :
    (∀ t, total_wallet_values (configs ++ [c]) t = total_wallet_values configs t) ∧
    total_value_of (configs ++ [c]) = total_value_of configs ∧
    total_investment_of (configs ++ [c]) =
      total_investment_of configs + c.total_investment := by
  have hw : ∀ t, total_wallet_values (configs ++ [c]) t =
      total_wallet_values configs t := by
    intro t
    simp [total_wallet_values, hfail, dictGet]
  refine ⟨hw, ?_, ?_⟩
  · simp only [total_value_of, hw]
  · simp [total_investment_of]

/-- Witness for C4: adding a fatally failing credential with configured
investment 50 leaves every total unchanged but raises total investment
by 50. -/
theorem failed_credential_investment_counted_witness :
    total_wallet_values [cfgA, cfgFail] "spot" = total_wallet_values [cfgA] "spot" ∧
    total_value_of [cfgA, cfgFail] = total_value_of [cfgA] ∧
    total_investment_of [cfgA, cfgFail] = total_investment_of [cfgA] + 50 := by
  have h := failed_credential_investment_counted [cfgA] cfgFail
    (by simp [get_all_wallet_values, exSpotFail, exBase, get_spot_balance, cfgFail])
  exact ⟨h.1 "spot", h.2.1, h.2.2⟩

/-- The per-pair isolated-margin loop distributes over list append. -/
theorem isoProcess_append (ex : Exchange) (l1 l2 : List IsoPair) :
    isoProcess ex (l1 ++ l2) = isoProcess ex l1 ++ isoProcess ex l2 := by
  induction l1 with
  | nil => simp [isoProcess]
  | cons a t ih => simp [isoProcess, ih]

/-- A pair entry depends on the exchange only through the ticker price of
its own base symbol. -/
theorem isoEntry_congr (ex ex2 : Exchange) (a : IsoPair)
    (h : ex2.symbolTicker (a.baseAsset.asset ++ "USDT") =
      ex.symbolTicker (a.baseAsset.asset ++ "USDT")) :
    isoEntry ex a = isoEntry ex2 a := by
  unfold isoEntry
  rw [h]

/-- C7: in the isolated-margin reader a price-lookup failure for one
enabled pair makes that pair base contribute exactly 0 (only its USDT
quote leg, if positive, survives), while every other pair contribution is
exactly its normal value and depends only on its own ticker lookups. -/
theorem iso_price_failure_contributes_zero (ex ex2 : Exchange)
    (L1 L2 : List IsoPair) (a : IsoPair)
    (hacc : ex.isolatedMarginAccount = some (L1 ++ a :: L2))
    (hen : a.enabled = true)
    (hfail : ex.symbolTicker (a.baseAsset.asset ++ "USDT") = none)
    (hsame : ∀ b ∈ L1 ++ L2,
      ex2.symbolTicker (b.baseAsset.asset ++ "USDT") =
        ex.symbolTicker (b.baseAsset.asset ++ "USDT")) :
    get_isolated_margin_balance ex =
      isoProcess ex L1 ++
        (if 0 < (if a.quoteAsset.asset == "USDT" then a.quoteAsset.netAsset else 0)
          then [⟨a.symbol,
            (if a.quoteAsset.asset == "USDT" then a.quoteAsset.netAsset else 0)⟩]
          else []) ++
        isoProcess ex L2 ∧
    isoProcess ex L1 = isoProcess ex2 L1 ∧
    isoProcess ex L2 = isoProcess ex2 L2 := by
  have hentry : isoEntry ex a =
      (if 0 < (if a.quoteAsset.asset == "USDT" then a.quoteAsset.netAsset else 0)
        then [⟨a.symbol,
          (if a.quoteAsset.asset == "USDT" then a.quoteAsset.netAsset else 0)⟩]
        else []) := by
    unfold isoEntry
    rw [hfail, hen]
    simp
  have hcongr : ∀ l : List IsoPair, (∀ b ∈ l,
      ex2.symbolTicker (b.baseAsset.asset ++ "USDT") =
        ex.symbolTicker (b.baseAsset.asset ++ "USDT")) →
      isoProcess ex l = isoProcess ex2 l := by
    intro l
    induction l with
    | nil => intro _; rfl
    | cons b t ih =>
        intro hl
        have hb := hl b (by simp)
        have ht := ih (fun x hx => hl x (by simp [hx]))
        simp [isoProcess, isoEntry_congr ex ex2 b hb, ht]
  refine ⟨?_, hcongr L1 (fun b hb => hsame b (by simp [hb])),
    hcongr L2 (fun b hb => hsame b (by simp [hb]))⟩
  simp only [get_isolated_margin_balance, hacc]
  rw [isoProcess_append]
  simp [isoProcess, hentry, List.append_assoc]

/-- Witness for C7: the spec scenario, one enabled BTCUSDT pair with base
netAsset 0.001, quote netAsset 0, and the BTCUSDT ticker unavailable: the
pair contributes nothing at all. -/
theorem iso_price_failure_contributes_zero_witness :
    get_isolated_margin_balance exIso7 = [] := by
  have h := iso_price_failure_contributes_zero exIso7 exIso7 [] [] pairBTC
    rfl rfl rfl (fun b hb => rfl)
  rw [h.1]
  simp [isoProcess, pairBTC]

/-- A fold accumulating a per-row amount equals the starting value plus
the sum of the per-row amounts. -/
theorem foldl_add_eq_sum {α : Type} (body : Rat → α → Rat) (g : α → Rat)
    (hbody : ∀ acc b, body acc b = acc + g b) :
    ∀ (l : List α) (acc : Rat), l.foldl body acc = acc + (l.map g).sum := by
  intro l
  induction l with
  | nil => intro acc; simp
  | cons b t ih =>
      intro acc
      rw [List.foldl_cons, ih, hbody, List.map_cons, List.sum_cons, add_assoc]

/-- The spot valuation is the sum of the per-row USDT values. -/
theorem calc_spot_eq_sum (prices : String → Option Rat) (rows : List SpotBal) :
    calculate_total_value (.spot rows) prices =
      (rows.map fun b =>
        if b.asset == "USDT" then b.total
        else
          match prices (b.asset ++ "USDT") with
          | some p => b.total * p
          | none => 0).sum := by
  have hbody : ∀ (acc : Rat) (b : SpotBal),
      (if b.asset == "USDT" then acc + b.total
        else
          match prices (b.asset ++ "USDT") with
          | some p => acc + b.total * p
          | none => acc) =
      acc + (if b.asset == "USDT" then b.total
        else
          match prices (b.asset ++ "USDT") with
          | some p => b.total * p
          | none => 0) := by
    intro acc b
    cases hb : b.asset == "USDT"
    · cases hp : prices (b.asset ++ "USDT") <;> simp [hb, hp]
    · simp [hb]
  simp only [calculate_total_value]
  rw [foldl_add_eq_sum _ _ hbody rows 0, zero_add]

/-- The cross-margin valuation is the sum of the per-row USDT values. -/
theorem calc_cross_eq_sum (prices : String → Option Rat) (rows : List MarginRow) :
    calculate_total_value (.cross_margin rows) prices =
      (rows.map fun b =>
        if b.asset == "USDT" then b.netAsset
        else
          match prices (b.asset ++ "USDT") with
          | some p => b.netAsset * p
          | none => 0).sum := by
  have hbody : ∀ (acc : Rat) (b : MarginRow),
      (if b.asset == "USDT" then acc + b.netAsset
        else
          match prices (b.asset ++ "USDT") with
          | some p => acc + b.netAsset * p
          | none => acc) =
      acc + (if b.asset == "USDT" then b.netAsset
        else
          match prices (b.asset ++ "USDT") with
          | some p => b.netAsset * p
          | none => 0) := by
    intro acc b
    cases hb : b.asset == "USDT"
    · cases hp : prices (b.asset ++ "USDT") <;> simp [hb, hp]
    · simp [hb]
  simp only [calculate_total_value]
  rw [foldl_add_eq_sum _ _ hbody rows 0, zero_add]

/-- The isolated-margin valuation is the sum of the netAsset column. -/
theorem calc_iso_eq_sum (prices : String → Option Rat) (rows : List IsoBalance) :
    calculate_total_value (.isolated_margin rows) prices =
      (rows.map fun b => b.netAsset).sum := by
  have hbody : ∀ (acc : Rat) (b : IsoBalance),
      acc + b.netAsset = acc + b.netAsset := fun _ _ => rfl
  simp only [calculate_total_value]
  rw [foldl_add_eq_sum _ _ hbody rows 0, zero_add]

/-- The futures valuation is the sum of the per-row USDT values. -/
theorem calc_fut_eq_sum (prices : String → Option Rat) (rows : List FutRow) :
    calculate_total_value (.futures rows) prices =
      (rows.map fun b =>
        if b.asset == "USDT" then b.balance
        else
          match prices (b.asset ++ "USDT") with
          | some p => b.balance * p
          | none => 0).sum := by
  have hbody : ∀ (acc : Rat) (b : FutRow),
      (if b.asset == "USDT" then acc + b.balance
        else
          match prices (b.asset ++ "USDT") with
          | some p => acc + b.balance * p
          | none => acc) =
      acc + (if b.asset == "USDT" then b.balance
        else
          match prices (b.asset ++ "USDT") with
          | some p => b.balance * p
          | none => 0) := by
    intro acc b
    cases hb : b.asset == "USDT"
    · cases hp : prices (b.asset ++ "USDT") <;> simp [hb, hp]
    · simp [hb]
  simp only [calculate_total_value]
  rw [foldl_add_eq_sum _ _ hbody rows 0, zero_add]

/-- The coin-futures branch computes exactly like the futures branch. -/
theorem calc_coin_eq_sum (prices : String → Option Rat) (rows : List FutRow) :
    calculate_total_value (.coin_futures rows) prices =
      calculate_total_value (.futures rows) prices := by
  simp only [calculate_total_value]

/-- C8: for every price table and every account type,
`calculate_total_value` is invariant under any permutation of the input
balance list: it is a pure sum over the entries. -/
theorem value_reorder_invariant (prices : String → Option Rat) :
    (∀ l1 l2 : List SpotBal, l1.Perm l2 →
      calculate_total_value (.spot l1) prices =
        calculate_total_value (.spot l2) prices) ∧
    (∀ l1 l2 : List MarginRow, l1.Perm l2 →
      calculate_total_value (.cross_margin l1) prices =
        calculate_total_value (.cross_margin l2) prices) ∧
    (∀ l1 l2 : List IsoBalance, l1.Perm l2 →
      calculate_total_value (.isolated_margin l1) prices =
        calculate_total_value (.isolated_margin l2) prices) ∧
    (∀ l1 l2 : List FutRow, l1.Perm l2 →
      calculate_total_value (.futures l1) prices =
        calculate_total_value (.futures l2) prices) ∧
    (∀ l1 l2 : List FutRow, l1.Perm l2 →
      calculate_total_value (.coin_futures l1) prices =
        calculate_total_value (.coin_futures l2) prices) := by
  refine ⟨?_, ?_, ?_, ?_, ?_⟩ <;> intro l1 l2 hperm
  · rw [calc_spot_eq_sum, calc_spot_eq_sum, (hperm.map _).sum_eq]
  · rw [calc_cross_eq_sum, calc_cross_eq_sum, (hperm.map _).sum_eq]
  · rw [calc_iso_eq_sum, calc_iso_eq_sum, (hperm.map _).sum_eq]
  · rw [calc_fut_eq_sum, calc_fut_eq_sum, (hperm.map _).sum_eq]
  · rw [calc_coin_eq_sum, calc_coin_eq_sum, calc_fut_eq_sum, calc_fut_eq_sum,
      (hperm.map _).sum_eq]

/-- Witness for C8: swapping a two-row list of each account type leaves
every valuation unchanged. -/
theorem value_reorder_invariant_witness :
    calculate_total_value (.spot [⟨"USDT", 1, 0, 1⟩, ⟨"BTC", 1, 0, 1⟩]) priceW =
      calculate_total_value (.spot [⟨"BTC", 1, 0, 1⟩, ⟨"USDT", 1, 0, 1⟩]) priceW ∧
    calculate_total_value (.cross_margin
        [⟨"USDT", 1, 0, 0, 0, 1⟩, ⟨"BTC", 1, 0, 0, 0, 1⟩]) priceW =
      calculate_total_value (.cross_margin
        [⟨"BTC", 1, 0, 0, 0, 1⟩, ⟨"USDT", 1, 0, 0, 0, 1⟩]) priceW ∧
    calculate_total_value (.isolated_margin
        [⟨"BTCUSDT", 3⟩, ⟨"ETHUSDT", 4⟩]) priceW =
      calculate_total_value (.isolated_margin
        [⟨"ETHUSDT", 4⟩, ⟨"BTCUSDT", 3⟩]) priceW ∧
    calculate_total_value (.futures [⟨"USDT", 1, []⟩, ⟨"BTC", 1, []⟩]) priceW =
      calculate_total_value (.futures [⟨"BTC", 1, []⟩, ⟨"USDT", 1, []⟩]) priceW ∧
    calculate_total_value (.coin_futures [⟨"USDT", 1, []⟩, ⟨"BTC", 1, []⟩]) priceW =
      calculate_total_value (.coin_futures [⟨"BTC", 1, []⟩, ⟨"USDT", 1, []⟩]) priceW := by
  have h := value_reorder_invariant priceW
  exact ⟨h.1 _ _ (List.Perm.swap _ _ []), h.2.1 _ _ (List.Perm.swap _ _ []),
    h.2.2.1 _ _ (List.Perm.swap _ _ []), h.2.2.2.1 _ _ (List.Perm.swap _ _ []),
    h.2.2.2.2 _ _ (List.Perm.swap _ _ [])⟩

/-- C10: when the fetched futures balance frame holds a USDT row, the
reader returns a frame of the same length and order in which every row
keeps its asset and its other columns, every non-USDT row is exactly as
fetched, and only the balance cell of the USDT rows is rewritten (to the
first USDT balance plus the total unrealized profit). -/
theorem futures_updates_only_usdt_balance (rows : List FutRow)
    (positions : List Rat) (u : FutRow)
    (hfind : rows.find? (fun r => r.asset == "USDT") = some u) :
    ∃ rows2, add_unrealized_profit rows positions = some rows2 ∧
      List.Forall₂ (fun r2 r : FutRow =>
        r2.asset = r.asset ∧ r2.others = r.others ∧
        (r.asset ≠ "USDT" → r2 = r) ∧
        (r.asset = "USDT" → r2.balance = u.balance + positions.sum))
        rows2 rows := by
  have hne : rows.isEmpty = false := by
    cases rows
    · simp at hfind
    · rfl
  refine ⟨rows.map (fun r =>
      if r.asset == "USDT" then ⟨r.asset, u.balance + positions.sum, r.others⟩
      else r), ?_, ?_⟩
  · simp [add_unrealized_profit, hne, hfind]
  · rw [List.forall₂_map_left_iff, List.forall₂_same]
    intro r hr
    by_cases h : r.asset = "USDT"
    · simp [h]
    · simp [h]

/-- Witness for C10: a frame with a USDT row and a BNB row and one
position with profit 3: the USDT balance becomes 53 and the BNB row and
all other columns are untouched. -/
theorem futures_updates_only_usdt_balance_witness :
    ∃ rows2,
      add_unrealized_profit
        [⟨"USDT", 50, [("col", "v")]⟩, ⟨"BNB", 2, []⟩] [3] = some rows2 ∧
      List.Forall₂ (fun r2 r : FutRow =>
        r2.asset = r.asset ∧ r2.others = r.others ∧
        (r.asset ≠ "USDT" → r2 = r) ∧
        (r.asset = "USDT" → r2.balance = (50 : Rat) + List.sum [3]))
        rows2 [⟨"USDT", 50, [("col", "v")]⟩, ⟨"BNB", 2, []⟩] := by
  exact futures_updates_only_usdt_balance
    [⟨"USDT", 50, [("col", "v")]⟩, ⟨"BNB", 2, []⟩] [3]
    ⟨"USDT", 50, [("col", "v")]⟩ rfl

end BinancePnL
